import Mathlib

set_option maxHeartbeats 1600000

/-
Verification development for `src/email_crawler.py` (shanto12/google_search).

The Python module defines a single class `EmailCrawler`.  Its pure pieces
(`extract_emails`, `find_contact_pages`) are embedded as Lean functions; the
stateful pieces (`get_page_content`, `crawl_page`, `google_search`,
`search_and_crawl`) are embedded as explicit state-passing functions over a
`CrawlerState` record holding the fields that those methods read or write
(`found_emails`, `sites_visited`, `google_pages_crawled`).  External
collaborators are passed in as function parameters: `fetch` stands for
`requests.get` + `raise_for_status` (returning page text and a success flag),
`parse` stands for `BeautifulSoup(...).find_all('a', href=True)` (returning the
anchors of a page), `urljoin` stands for `urllib.parse.urljoin`, and `provider`
stands for one Google-Custom-Search page request.  A ghost field `fetch_log`
records every call made through `get_page_content` together with its success
flag (the "fetch stub that records calls" of the specification); it influences
nothing.  Logging, `tqdm` progress bars, `time.sleep` and the `debug_info`
diagnostics dictionary are omitted: they only record diagnostic text and never
influence `found_emails`, the counters, or which pages are fetched.
-/

namespace Crawler

/-- Character class `[a-zA-Z0-9._%+-]` of the local part of the e-mail regex
on line 61 of `email_crawler.py`. -/
def isLocalChar (c : Char) : Bool :=
  c.isAlpha || c.isDigit || c = '.' || c = '_' || c = '%' || c = '+' || c = '-'

/-- Character class `[a-zA-Z0-9.-]` of the domain part of the e-mail regex. -/
def isDomainChar (c : Char) : Bool :=
  c.isAlpha || c.isDigit || c = '.' || c = '-'

/-- Character class `[a-zA-Z]` of the top-level-domain part of the e-mail
regex. -/
def isTldChar (c : Char) : Bool :=
  c.isAlpha

/-- Length consumed by `[a-zA-Z]{2,}` at the head of `cs`: the maximal run of
letters, provided it has length at least two (greedy, nothing follows it in
the pattern). -/
def tldLen (cs : List Char) : Option Nat :=
  let t := (cs.takeWhile isTldChar).length
  if 2 ≤ t then some t else none

/-- Length consumed by `\.[a-zA-Z]{2,}` at the head of `cs`. -/
def dotTldLen : List Char → Option Nat
  | c :: rest => if c = '.' then (tldLen rest).map (· + 1) else none
  | [] => none

/-- Backtracking of the greedy `[a-zA-Z0-9.-]+` of the e-mail regex: the
domain part first consumes `k` characters (all of which lie inside the maximal
domain-character run of `cs`) and on failure of the tail pattern
`\.[a-zA-Z]{2,}` retries with `k - 1`, down to the mandatory single
character.  Returns the total length consumed by `[a-zA-Z0-9.-]+\.[a-zA-Z]{2,}`
starting at `cs`, or `none`. -/
def domainBacktrack (cs : List Char) : Nat → Option Nat
  | 0 => none
  | k + 1 =>
    match dotTldLen (cs.drop (k + 1)) with
    | some m => some (k + 1 + m)
    | none => domainBacktrack cs k

/-- Length of the match of the regex `[a-zA-Z0-9._%+-]+@[a-zA-Z0-9.-]+\.[a-zA-Z]{2,}`
anchored at the head of `cs` under Python `re` semantics, or `none` if there is
no match at this position.  The greedy `[a-zA-Z0-9._%+-]+` needs no
backtracking: shortening it puts a local-part character where the literal `@`
is required, and `'@'` is not a local-part character. -/
def matchLenAt (cs : List Char) : Option Nat :=
  let l := (cs.takeWhile isLocalChar).length
  if l = 0 then none
  else
    match cs.drop l with
    | c :: rest =>
      if c = '@' then
        match domainBacktrack rest (rest.takeWhile isDomainChar).length with
        | some d => some (l + 1 + d)
        | none => none
      else none
    | [] => none

/-- Fuel-indexed embedding of `re.findall` for the e-mail pattern: scan the
text left to right; at each position emit the greedy match anchored there (if
any) and resume after it, otherwise advance one character.  Each step shortens
the text, so `length + 1` fuel (as supplied by `findall`) never runs out; the
fuel only makes the recursion structural. -/
def findallFuel : Nat → List Char → List (List Char)
  | 0, _ => []
  | _ + 1, [] => []
  | fuel + 1, c :: cs =>
    match matchLenAt (c :: cs) with
    | some n => (c :: cs).take n :: findallFuel fuel ((c :: cs).drop n)
    | none => findallFuel fuel cs

/-- Embedding of `re.findall(email_pattern, text)` over a character list. -/
def findall (cs : List Char) : List (List Char) :=
  findallFuel (cs.length + 1) cs

/-- Embedding of `EmailCrawler.extract_emails` (lines 59-62):
`set(re.findall(email_pattern, text))`. -/
def extract_emails (text : String) : Finset String :=
  ((findall text.data).map String.mk).toFinset

/-- Specification-side reading of the e-mail pattern, written from the spec's
words: a character list matches the pattern exactly when it splits as
local-part (`[A-Za-z0-9._%+-]+`), literal `@`, domain (`[A-Za-z0-9.-]+`),
literal `.`, and a TLD of two or more letters. -/
def IsEmail (l : List Char) : Prop :=
  ∃ a b c, l = a ++ '@' :: (b ++ '.' :: c) ∧
    a ≠ [] ∧ (∀ x ∈ a, isLocalChar x = true) ∧
    b ≠ [] ∧ (∀ x ∈ b, isDomainChar x = true) ∧
    2 ≤ c.length ∧ (∀ x ∈ c, isTldChar x = true)

/-- Boolean split test behind `isEmailB`: position `i` carries the `@`,
position `j` carries the final `.`, everything before `i` is local-part,
everything strictly between is domain, everything after `j` is a TLD of
length at least two reaching the end of the list. -/
def emailSplitOK (l : List Char) (i j : Nat) : Bool :=
  decide (1 ≤ i) && decide (i + 2 ≤ j) && decide (j + 3 ≤ l.length) &&
  (l.take i).all isLocalChar &&
  decide (l.get? i = some '@') &&
  ((l.drop (i + 1)).take (j - (i + 1))).all isDomainChar &&
  decide (l.get? j = some '.') &&
  (l.drop (j + 1)).all isTldChar

/-- Executable full-match test for the e-mail pattern (decides `IsEmail`). -/
def isEmailB (l : List Char) : Bool :=
  (List.range (l.length + 1)).any fun i =>
    (List.range (l.length + 1)).any fun j => emailSplitOK l i j

/-- All contiguous substrings of a character list (prefixes of suffixes). -/
def substringsCL (cs : List Char) : List (List Char) :=
  cs.tails.flatMap List.inits

/-- Specification-side set for claim C3: the distinct substrings of `text`
that match the e-mail pattern. -/
def emailSubstrings (text : String) : Finset String :=
  (((substringsCL text.data).filter isEmailB).map String.mk).toFinset

/-- Python `str.lower()` restricted to ASCII, which is all the source relies
on (the keyword list and URL schemes are ASCII). -/
def pyLower (s : String) : String :=
  String.mk (s.data.map Char.toLower)

/-- Python's substring test `needle in hay`. -/
def strContains (hay needle : String) : Bool :=
  (List.range (hay.data.length + 1)).any fun i => needle.data.isPrefixOf (hay.data.drop i)

/-- Python's `full_url.startswith(p)` for one candidate `p`. -/
def pyStartsWith (s p : String) : Bool :=
  p.data.isPrefixOf s.data

/-- One anchor element with an `href` attribute, as returned by
`soup.find_all('a', href=True)`: its `href` attribute and its visible text. -/
structure Anchor where
  href : String
  text : String
deriving DecidableEq

/-- The keyword list of `find_contact_pages` (line 83). -/
def contact_keywords : List String :=
  ["contact", "about", "team", "staff", "directory", "about-us"]

/-- The qualification test of line 89:
`any(keyword in href or keyword in text for keyword in contact_keywords)`,
where `href` and `text` are the lower-cased attribute and visible text. -/
def anchorQualifies (link : Anchor) : Bool :=
  contact_keywords.any fun keyword =>
    strContains (pyLower link.href) keyword || strContains (pyLower link.text) keyword

/-- Embedding of `EmailCrawler.find_contact_pages` (lines 80-94).  The loop
body appends `urljoin(base_url, href)` (note: the already lower-cased `href`)
whenever the anchor qualifies and the joined URL starts with `http://` or
`https://`; the final `list(set(contact_links))` is modelled by `List.dedup`
(CPython iterates the set in unspecified hash order; no claim depends on the
order, only on the element set, which `dedup` preserves). -/
def find_contact_pages (urljoin : String → String → String) (anchors : List Anchor)
    (base_url : String) : List String :=
  let contact_links := anchors.foldl (fun acc link =>
    if anchorQualifies link then
      let full_url := urljoin base_url (pyLower link.href)
      if pyStartsWith full_url "http://" || pyStartsWith full_url "https://" then
        acc ++ [full_url]
      else acc
    else acc) []
  contact_links.dedup

/-- Entry lookup in the insertion-ordered dictionary `found_emails`, embedded
as an association list with unique keys. -/
def lookupFE : List (String × Finset String) → String → Option (Finset String)
  | [], _ => none
  | (k', v') :: rest, k => if k' = k then some v' else lookupFE rest k

/-- Python dictionary assignment `d[k] = v`: overwrite in place if the key is
present, otherwise append at the end. -/
def insertFE : List (String × Finset String) → String → Finset String →
    List (String × Finset String)
  | [], k, v => [(k, v)]
  | (k', v') :: rest, k, v =>
    if k' = k then (k, v) :: rest else (k', v') :: insertFE rest k v

/-- Key list of the dictionary. -/
def keysFE (m : List (String × Finset String)) : List String :=
  m.map Prod.fst

/-- The mutable fields of `EmailCrawler` that the crawl methods read or write,
plus the ghost `fetch_log` (every `get_page_content` call with its success
flag; written only, never read by the embedded code). -/
structure CrawlerState where
  found_emails : List (String × Finset String)
  sites_visited : Nat
  google_pages_crawled : Nat
  fetch_log : List (String × Bool)
deriving DecidableEq

/-- The crawler state as `EmailCrawler.__init__` (lines 46-54) creates it:
empty dictionary and zeroed counters. -/
def initState : CrawlerState :=
  { found_emails := [], sites_visited := 0, google_pages_crawled := 0, fetch_log := [] }

/-- Embedding of `EmailCrawler.get_page_content` (lines 64-78).  On transport
success it increments `sites_visited` and returns the page text with `True`;
on any exception it returns `("", False)` and leaves the counter alone.  The
call is recorded in the ghost `fetch_log` either way. -/
def get_page_content (fetch : String → String × Bool) (st : CrawlerState) (url : String) :
    (String × Bool) × CrawlerState :=
  if (fetch url).2 then
    (((fetch url).1, true),
      { st with sites_visited := st.sites_visited + 1,
                fetch_log := st.fetch_log ++ [(url, true)] })
  else
    (("", false), { st with fetch_log := st.fetch_log ++ [(url, false)] })

/-- One iteration of the contact-page loop of `crawl_page` (lines 127-139):
skip the contact URL if it is already a key of `found_emails`; otherwise fetch
it and, if the fetch succeeded with non-empty content and extraction found
e-mails, store them under the contact URL. -/
def crawl_contact (fetch : String → String × Bool) (st : CrawlerState)
    (contact_url : String) : CrawlerState :=
  if (lookupFE st.found_emails contact_url).isSome then st
  else
    let r := get_page_content fetch st contact_url
    if r.1.2 && !(r.1.1 = "") then
      let contact_emails := extract_emails r.1.1
      if contact_emails = ∅ then r.2
      else { r.2 with found_emails := insertFE r.2.found_emails contact_url contact_emails }
    else r.2

/-- Embedding of `EmailCrawler.crawl_page` (lines 96-139).  Fetch the main
page (giving up on failure), store extracted e-mails under the page URL when
there are any, discover contact pages, and run the contact loop over them. -/
def crawl_page (fetch : String → String × Bool) (parse : String → List Anchor)
    (urljoin : String → String → String) (st : CrawlerState) (url : String) : CrawlerState :=
  let r := get_page_content fetch st url
  if !r.1.2 then r.2
  else
    let content := r.1.1
    let emails := extract_emails content
    let st2 :=
      if emails = ∅ then r.2
      else { r.2 with found_emails := insertFE r.2.found_emails url emails }
    let contact_pages := find_contact_pages urljoin (parse content) url
    contact_pages.foldl (crawl_contact fetch) st2

/-- Outcome of one Google-Custom-Search page request: either the (possibly
empty) list of result links of that page, or an `HttpError`. -/
inductive SearchPage where
  | items (links : List String)
  | err
deriving DecidableEq

/-- The pagination loop of `google_search` (lines 147-161): for each page
index increment `google_pages_crawled`, then issue the request; extend the
accumulated URLs on success and return `[]` from the whole function on
`HttpError` (the `except` on line 164 discards the URLs gathered so far). -/
def google_search_go (provider : String → Nat → SearchPage) (query : String) :
    List Nat → List String → CrawlerState → List String × CrawlerState
  | [], urls, st => (urls, st)
  | i :: rest, urls, st =>
    let st1 : CrawlerState :=
      { st with google_pages_crawled := st.google_pages_crawled + 1 }
    match provider query i with
    | SearchPage.items links => google_search_go provider query rest (urls ++ links) st1
    | SearchPage.err => ([], st1)

/-- Embedding of `EmailCrawler.google_search` (lines 141-168); the provider is
called once per page index `i` (the source derives `start_index = i*10 + 1`
from it). -/
def google_search (provider : String → Nat → SearchPage) (st : CrawlerState)
    (query : String) (num_pages : Nat) : List String × CrawlerState :=
  google_search_go provider query (List.range num_pages) [] st

/-- Embedding of `EmailCrawler.search_and_crawl` (lines 170-188): search, and
if no URLs came back return a fresh empty dictionary; otherwise crawl every
URL and return `self.found_emails`.  The `ThreadPoolExecutor.map` dispatch is
embedded as the sequential left fold over the URL list, which the
specification itself takes as the reference behaviour of the pool. -/
def search_and_crawl (fetch : String → String × Bool) (parse : String → List Anchor)
    (urljoin : String → String → String) (provider : String → Nat → SearchPage)
    (st : CrawlerState) (query : String) (num_pages : Nat) :
    List (String × Finset String) × CrawlerState :=
  let r := google_search provider st query num_pages
  if r.1 = [] then ([], r.2)
  else
    let st2 := r.1.foldl (crawl_page fetch parse urljoin) r.2
    (st2.found_emails, st2)

/-- Python truthiness of `os.getenv`'s result: `None` and `""` are falsy. -/
def pyTruthy : Option String → Bool
  | none => false
  | some s => !(s = "")

/-- The configured crawler produced by a successful `EmailCrawler.__init__`. -/
structure EmailCrawler where
  api_key : String
  cse_id : String
  debug_mode : Bool
  state : CrawlerState

/-- Embedding of `EmailCrawler.__init__` (lines 46-57): read the two
credentials from the environment, initialise the empty state, and raise
`ValueError` when either credential is missing (or empty, by Python
truthiness) — before any search or crawl can run. -/
def EmailCrawler_init (env : String → Option String) (debug_mode : Bool) :
    Except String EmailCrawler :=
  let api_key := env "GOOGLE_API_KEY"
  let cse_id := env "GOOGLE_CSE_ID"
  if !pyTruthy api_key || !pyTruthy cse_id then
    Except.error "Missing API key or Search Engine ID in .env file"
  else
    Except.ok
      { api_key := api_key.getD "", cse_id := cse_id.getD "",
        debug_mode := debug_mode, state := initState }

/-- States reachable from a fresh crawler by any sequence of `crawl_page` and
`search_and_crawl` operations, under arbitrary transport, parser, URL-join and
search-provider behaviour. -/
inductive Reachable : CrawlerState → Prop
  | init : Reachable initState
  | crawl (fetch parse urljoin url) {st} :
      Reachable st → Reachable (crawl_page fetch parse urljoin st url)
  | search (fetch parse urljoin provider query num_pages) {st} :
      Reachable st →
      Reachable (search_and_crawl fetch parse urljoin provider st query num_pages).2

/-- Number of successful calls in a stretch of the fetch log. -/
def countT (d : List (String × Bool)) : Nat :=
  (d.filter fun e => e.2).length

/-- Every value stored in the dictionary is a non-empty e-mail set (the
ResultMap invariant of the specification). -/
def NonemptyVals (m : List (String × Finset String)) : Prop :=
  ∀ p ∈ m, p.2 ≠ (∅ : Finset String)

/-- Fetch-log stretch contributed by one `crawl_contact` iteration. -/
def ccDelta (fetch : String → String × Bool) (st : CrawlerState) (c : String) :
    List (String × Bool) :=
  if (lookupFE st.found_emails c).isSome then [] else [(c, (fetch c).2)]

/-- Transport stub for the concrete runs: seed `s1` serves a page holding one
e-mail address, the contact page `http://c1/contact` serves text with no
e-mail address in it, everything else is unreachable. -/
def fetchA : String → String × Bool := fun u =>
  if u = "s1" then ("a@b.us", true)
  else if u = "http://c1/contact" then ("zz", true)
  else ("", false)

/-- Parser stub: the page text served for `s1` holds a single anchor pointing
at the contact page; every other page has no anchors. -/
def parseA : String → List Anchor := fun content =>
  if content = "a@b.us" then [⟨"http://c1/contact", "x"⟩] else []

/-- URL-join stub standing for `urllib.parse.urljoin` on already absolute
hrefs, which it returns unchanged. -/
def ujoin : String → String → String := fun _ href => href

/-- Transport stub for the two-invocation run of claim C9: two seed pages,
each serving one e-mail address, no contact links. -/
def fetchB : String → String × Bool := fun u =>
  if u = "s1" then ("a@b.us", true)
  else if u = "s2" then ("c@d.us", true)
  else ("", false)

/-- Parser stub returning no anchors at all. -/
def parseB : String → List Anchor := fun _ => []

/-- Search-provider stub for claim C9: query `q1` yields seed `s1`, any other
query yields seed `s2`. -/
def provB : String → Nat → SearchPage := fun q _ =>
  if q = "q1" then SearchPage.items ["s1"] else SearchPage.items ["s2"]

/-- Search-provider stub whose every page request fails with `HttpError`. -/
def provErr : String → Nat → SearchPage := fun _ _ => SearchPage.err

/-- Search-provider stub whose every page request succeeds with no items. -/
def provEmpty : String → Nat → SearchPage := fun _ _ => SearchPage.items []

/-- Anchor whose href carries upper-case characters, for the C10 witness. -/
def anchorUpper : Anchor := { href := "HTTP://Site.com/About-Us", text := "x" }

/-- First `search_and_crawl` invocation of the C9 run, on a fresh crawler. -/
def runB1 : List (String × Finset String) × CrawlerState :=
  search_and_crawl fetchB parseB ujoin provB initState "q1" 1

/-- Second `search_and_crawl` invocation of the C9 run, on the same crawler. -/
def runB2 : List (String × Finset String) × CrawlerState :=
  search_and_crawl fetchB parseB ujoin provB runB1.2 "q2" 1

/-- Environment stub with no variables set at all. -/
def envEmpty : String → Option String := fun _ => none

/-- The choice an anchor contributes to `find_contact_pages`: `some` joined
URL if the anchor qualifies and the joined URL is http(s), else `none`.
The loop of `find_contact_pages` appends exactly these choices in order. -/
def contactChoice (urljoin : String → String → String) (base_url : String)
    (link : Anchor) : Option String :=
  if anchorQualifies link then
    let full_url := urljoin base_url (pyLower link.href)
    if pyStartsWith full_url "http://" || pyStartsWith full_url "https://" then some full_url
    else none
  else none

end Crawler

namespace Crawler

theorem keysFE_nil : keysFE [] = [] := rfl

theorem keysFE_cons (p : String × Finset String) (m : List (String × Finset String)) :
    keysFE (p :: m) = p.1 :: keysFE m := rfl

theorem lookupFE_eq_none (m : List (String × Finset String)) (k : String) :
    lookupFE m k = none ↔ k ∉ keysFE m := by
  induction m with
  | nil => simp [lookupFE, keysFE]
  | cons p rest ih =>
    obtain ⟨k', v'⟩ := p
    by_cases h : k' = k
    · subst h
      simp [lookupFE, keysFE_cons]
    · simp only [lookupFE, if_neg h, keysFE_cons, List.mem_cons, not_or, ih]
      exact ⟨fun hk => ⟨fun he => h he.symm, hk⟩, fun hk => hk.2⟩

theorem mem_insertFE : ∀ (m : List (String × Finset String)) (k : String) (v : Finset String)
    (p : String × Finset String), p ∈ insertFE m k v → p = (k, v) ∨ p ∈ m
  | [], k, v, p, hp => by simpa [insertFE] using hp
  | (k', v') :: rest, k, v, p, hp => by
    by_cases h : k' = k
    · simp only [insertFE, if_pos h, List.mem_cons] at hp
      rcases hp with h1 | h1
      · exact Or.inl h1
      · exact Or.inr (List.mem_cons_of_mem _ h1)
    · simp only [insertFE, if_neg h, List.mem_cons] at hp
      rcases hp with h1 | h1
      · exact Or.inr (by simp [h1])
      · rcases mem_insertFE rest k v p h1 with h2 | h2
        · exact Or.inl h2
        · exact Or.inr (List.mem_cons_of_mem _ h2)

theorem keysFE_subset_insertFE : ∀ (m : List (String × Finset String)) (k : String)
    (v : Finset String), keysFE m ⊆ keysFE (insertFE m k v)
  | [], k, v => by simp [insertFE, keysFE]
  | (k', v') :: rest, k, v => by
    by_cases h : k' = k
    · simp [insertFE, keysFE, h]
    · simp only [insertFE, if_neg h, keysFE, List.map_cons]
      exact List.cons_subset_cons k' (keysFE_subset_insertFE rest k v)

theorem nonemptyVals_insertFE {m : List (String × Finset String)} {k : String}
    {v : Finset String} (hm : NonemptyVals m) (hv : v ≠ ∅) :
    NonemptyVals (insertFE m k v) := by
  intro p hp
  rcases mem_insertFE m k v p hp with h | h
  · rw [h]; exact hv
  · exact hm p h

theorem countT_append (d₁ d₂ : List (String × Bool)) :
    countT (d₁ ++ d₂) = countT d₁ + countT d₂ := by
  simp [countT, List.filter_append]

theorem get_page_content_spec (fetch : String → String × Bool) (st : CrawlerState)
    (url : String) :
    (get_page_content fetch st url).2.found_emails = st.found_emails ∧
    (get_page_content fetch st url).2.google_pages_crawled = st.google_pages_crawled ∧
    (get_page_content fetch st url).2.fetch_log = st.fetch_log ++ [(url, (fetch url).2)] ∧
    (get_page_content fetch st url).2.sites_visited
      = st.sites_visited + countT [(url, (fetch url).2)] ∧
    (get_page_content fetch st url).1.2 = (fetch url).2 ∧
    ((fetch url).2 = true → (get_page_content fetch st url).1.1 = (fetch url).1) := by
  cases h : (fetch url).2 <;> simp [get_page_content, h, countT]

theorem crawl_contact_spec (fetch : String → String × Bool) (st : CrawlerState) (c : String) :
    (crawl_contact fetch st c).fetch_log = st.fetch_log ++ ccDelta fetch st c ∧
    (crawl_contact fetch st c).google_pages_crawled = st.google_pages_crawled ∧
    (crawl_contact fetch st c).sites_visited
      = st.sites_visited + countT (ccDelta fetch st c) ∧
    keysFE st.found_emails ⊆ keysFE (crawl_contact fetch st c).found_emails ∧
    (NonemptyVals st.found_emails → NonemptyVals (crawl_contact fetch st c).found_emails) ∧
    ((lookupFE st.found_emails c).isSome → crawl_contact fetch st c = st) := by
  obtain ⟨hfe, hg, hlog, hsv, -, -⟩ := get_page_content_spec fetch st c
  by_cases h : (lookupFE st.found_emails c).isSome
  · simp [crawl_contact, ccDelta, h, countT]
  · have hd : ccDelta fetch st c = [(c, (fetch c).2)] := by simp [ccDelta, h]
    rw [hd]
    simp only [crawl_contact, if_neg h]
    split
    · split
      · exact ⟨hlog, hg, hsv, by rw [hfe]; exact fun x hx => hx,
          fun hnv => by rw [hfe]; exact hnv, fun hs => absurd hs h⟩
      · rename_i hne
        refine ⟨by simpa using hlog, by simpa using hg, by simpa using hsv, ?_, ?_,
          fun hs => absurd hs h⟩
        · show keysFE st.found_emails ⊆ keysFE (insertFE _ c _)
          rw [← hfe]
          exact keysFE_subset_insertFE _ c _
        · intro hnv
          show NonemptyVals (insertFE _ c _)
          rw [← hfe] at hnv
          exact nonemptyVals_insertFE hnv hne
    · exact ⟨hlog, hg, hsv, by rw [hfe]; exact fun x hx => hx,
        fun hnv => by rw [hfe]; exact hnv, fun hs => absurd hs h⟩

theorem lookupFE_isSome (m : List (String × Finset String)) (k : String) :
    (lookupFE m k).isSome ↔ k ∈ keysFE m := by
  rw [Option.isSome_iff_ne_none, ne_eq, lookupFE_eq_none, not_not]

theorem mem_ccDelta {fetch : String → String × Bool} {st : CrawlerState} {c : String}
    {e : String × Bool} (he : e ∈ ccDelta fetch st c) :
    e.1 = c ∧ lookupFE st.found_emails c = none := by
  by_cases h : (lookupFE st.found_emails c).isSome
  · simp [ccDelta, h] at he
  · simp only [ccDelta, if_neg h, List.mem_singleton] at he
    exact ⟨by rw [he], Option.not_isSome_iff_eq_none.mp h⟩

theorem foldl_crawl_contact_spec (fetch : String → String × Bool) :
    ∀ (contacts : List String) (st : CrawlerState), ∃ d,
      (contacts.foldl (crawl_contact fetch) st).fetch_log = st.fetch_log ++ d ∧
      (contacts.foldl (crawl_contact fetch) st).google_pages_crawled
        = st.google_pages_crawled ∧
      (contacts.foldl (crawl_contact fetch) st).sites_visited
        = st.sites_visited + countT d ∧
      (∀ e ∈ d, e.1 ∈ contacts ∧ e.1 ∉ keysFE st.found_emails) ∧
      keysFE st.found_emails
        ⊆ keysFE (contacts.foldl (crawl_contact fetch) st).found_emails ∧
      (NonemptyVals st.found_emails →
        NonemptyVals (contacts.foldl (crawl_contact fetch) st).found_emails) ∧
      (∀ c ∈ contacts,
        lookupFE (contacts.foldl (crawl_contact fetch) st).found_emails c = none →
          ∃ e ∈ d, e.1 = c) := by
  intro contacts
  induction contacts with
  | nil =>
    intro st
    exact ⟨[], by simp, rfl, by simp [countT], by simp, fun x hx => hx, fun h => h, by simp⟩
  | cons c cs ih =>
    intro st
    obtain ⟨hlog1, hg1, hsv1, hkeys1, hnv1, -⟩ := crawl_contact_spec fetch st c
    obtain ⟨d2, hlog2, hg2, hsv2, hmem2, hkeys2, hnv2, hcov2⟩ :=
      ih (crawl_contact fetch st c)
    refine ⟨ccDelta fetch st c ++ d2, ?_, ?_, ?_, ?_, ?_, ?_, ?_⟩
    · rw [List.foldl_cons, hlog2, hlog1, List.append_assoc]
    · rw [List.foldl_cons, hg2, hg1]
    · rw [List.foldl_cons, hsv2, hsv1, countT_append, Nat.add_assoc]
    · intro e he
      rcases List.mem_append.mp he with h | h
      · obtain ⟨he1, hnone⟩ := mem_ccDelta h
        exact ⟨by rw [he1]; exact List.mem_cons_self c cs,
          by rw [he1]; exact (lookupFE_eq_none _ _).mp hnone⟩
      · obtain ⟨hin, hnot⟩ := hmem2 e h
        exact ⟨List.mem_cons_of_mem c hin, fun hk => hnot (hkeys1 hk)⟩
    · rw [List.foldl_cons]
      exact fun x hx => hkeys2 (hkeys1 hx)
    · rw [List.foldl_cons]
      exact fun h => hnv2 (hnv1 h)
    · intro c' hc' hnone
      rw [List.foldl_cons] at hnone
      rcases List.mem_cons.mp hc' with h | h
      · subst h
        by_cases hs : (lookupFE st.found_emails c').isSome
        · exfalso
          have hk : c' ∈ keysFE st.found_emails := (lookupFE_isSome _ _).mp hs
          exact (lookupFE_eq_none _ _).mp hnone (hkeys2 (hkeys1 hk))
        · refine ⟨(c', (fetch c').2), List.mem_append.mpr (Or.inl ?_), rfl⟩
          simp [ccDelta, hs]
      · obtain ⟨e, he, he1⟩ := hcov2 c' h hnone
        exact ⟨e, List.mem_append.mpr (Or.inr he), he1⟩

theorem countT_cons (e : String × Bool) (d : List (String × Bool)) :
    countT (e :: d) = (if e.2 then 1 else 0) + countT d := by
  cases h : e.2 <;> simp [countT, List.filter_cons, h, Nat.add_comm]

theorem crawl_page_eq_of_fail {fetch : String → String × Bool} {parse : String → List Anchor}
    {urljoin : String → String → String} {st : CrawlerState} {url : String}
    (h : (fetch url).2 = false) :
    crawl_page fetch parse urljoin st url = (get_page_content fetch st url).2 := by
  have hok := (get_page_content_spec fetch st url).2.2.2.2.1
  simp only [crawl_page]
  rw [hok, h]
  simp

theorem crawl_page_eq_of_ok {fetch : String → String × Bool} {parse : String → List Anchor}
    {urljoin : String → String → String} {st : CrawlerState} {url : String}
    (h : (fetch url).2 = true) :
    crawl_page fetch parse urljoin st url =
      (find_contact_pages urljoin (parse (get_page_content fetch st url).1.1) url).foldl
        (crawl_contact fetch)
        (if extract_emails (get_page_content fetch st url).1.1 = ∅ then
          (get_page_content fetch st url).2
         else
          { (get_page_content fetch st url).2 with
              found_emails := insertFE (get_page_content fetch st url).2.found_emails url
                (extract_emails (get_page_content fetch st url).1.1) }) := by
  have hok := (get_page_content_spec fetch st url).2.2.2.2.1
  simp only [crawl_page]
  rw [hok, h]
  simp

theorem crawl_page_spec (fetch : String → String × Bool) (parse : String → List Anchor)
    (urljoin : String → String → String) (st : CrawlerState) (url : String) : ∃ d,
    (crawl_page fetch parse urljoin st url).fetch_log
      = st.fetch_log ++ (url, (fetch url).2) :: d ∧
    (crawl_page fetch parse urljoin st url).google_pages_crawled
      = st.google_pages_crawled ∧
    (crawl_page fetch parse urljoin st url).sites_visited
      = st.sites_visited + countT ((url, (fetch url).2) :: d) ∧
    (∀ e ∈ d, e.1 ∉ keysFE st.found_emails) ∧
    keysFE st.found_emails ⊆ keysFE (crawl_page fetch parse urljoin st url).found_emails ∧
    (NonemptyVals st.found_emails →
      NonemptyVals (crawl_page fetch parse urljoin st url).found_emails) ∧
    ((fetch url).2 = true →
      ∀ c ∈ find_contact_pages urljoin (parse (fetch url).1) url,
        lookupFE (crawl_page fetch parse urljoin st url).found_emails c = none →
          ∃ e ∈ d, e.1 = c) := by
  obtain ⟨hfe, hg, hlog, hsv, -, hcontent⟩ := get_page_content_spec fetch st url
  cases h : (fetch url).2 with
  | false =>
    rw [crawl_page_eq_of_fail h]
    rw [h] at hlog hsv
    refine ⟨[], hlog, hg, by simpa using hsv, by simp, ?_, ?_, ?_⟩
    · rw [hfe]; exact fun x hx => hx
    · rw [hfe]; exact fun hnv => hnv
    · intro hsucc; exact absurd hsucc (by simp)
  | true =>
    rw [crawl_page_eq_of_ok h, hcontent h]
    rw [h] at hlog hsv
    set st2 :=
      (if extract_emails (fetch url).1 = ∅ then (get_page_content fetch st url).2
       else
        { (get_page_content fetch st url).2 with
            found_emails := insertFE (get_page_content fetch st url).2.found_emails url
              (extract_emails (fetch url).1) }) with hst2
    have h2log : st2.fetch_log = st.fetch_log ++ [(url, true)] := by
      rw [hst2]; split <;> simpa using hlog
    have h2g : st2.google_pages_crawled = st.google_pages_crawled := by
      rw [hst2]; split <;> simpa using hg
    have h2sv : st2.sites_visited = st.sites_visited + 1 := by
      rw [hst2]; split <;> simpa [countT] using hsv
    have h2keys : keysFE st.found_emails ⊆ keysFE st2.found_emails := by
      rw [hst2]; split
      · rw [hfe]; exact fun x hx => hx
      · show keysFE st.found_emails ⊆ keysFE (insertFE _ url _)
        rw [← hfe]
        exact keysFE_subset_insertFE _ url _
    have h2nv : NonemptyVals st.found_emails → NonemptyVals st2.found_emails := by
      rw [hst2]; split
      · rw [hfe]; exact fun hnv => hnv
      · rename_i hne
        intro hnv
        show NonemptyVals (insertFE _ url _)
        rw [← hfe] at hnv
        exact nonemptyVals_insertFE hnv hne
    obtain ⟨d2, hlog2, hg2, hsv2, hmem2, hkeys2, hnv2, hcov2⟩ :=
      foldl_crawl_contact_spec fetch
        (find_contact_pages urljoin (parse (fetch url).1) url) st2
    refine ⟨d2, ?_, ?_, ?_, ?_, ?_, ?_, ?_⟩
    · rw [hlog2, h2log, List.append_assoc]; rfl
    · rw [hg2, h2g]
    · rw [hsv2, h2sv, countT_cons]
      simp [Nat.add_assoc]
    · intro e he
      have := (hmem2 e he).2
      exact fun hk => this (h2keys hk)
    · exact fun x hx => hkeys2 (h2keys hx)
    · exact fun hnv => hnv2 (h2nv hnv)
    · intro _ c hc hnone
      exact hcov2 c hc hnone

theorem foldl_crawl_page_spec (fetch : String → String × Bool) (parse : String → List Anchor)
    (urljoin : String → String → String) :
    ∀ (urls : List String) (st : CrawlerState), ∃ d,
      (urls.foldl (crawl_page fetch parse urljoin) st).fetch_log = st.fetch_log ++ d ∧
      (urls.foldl (crawl_page fetch parse urljoin) st).google_pages_crawled
        = st.google_pages_crawled ∧
      (urls.foldl (crawl_page fetch parse urljoin) st).sites_visited
        = st.sites_visited + countT d ∧
      keysFE st.found_emails
        ⊆ keysFE (urls.foldl (crawl_page fetch parse urljoin) st).found_emails ∧
      (NonemptyVals st.found_emails →
        NonemptyVals (urls.foldl (crawl_page fetch parse urljoin) st).found_emails) := by
  intro urls
  induction urls with
  | nil =>
    intro st
    exact ⟨[], by simp, rfl, by simp [countT], fun x hx => hx, fun h => h⟩
  | cons url rest ih =>
    intro st
    obtain ⟨d1, hlog1, hg1, hsv1, -, hkeys1, hnv1, -⟩ :=
      crawl_page_spec fetch parse urljoin st url
    obtain ⟨d2, hlog2, hg2, hsv2, hkeys2, hnv2⟩ :=
      ih (crawl_page fetch parse urljoin st url)
    refine ⟨((url, (fetch url).2) :: d1) ++ d2, ?_, ?_, ?_, ?_, ?_⟩
    · rw [List.foldl_cons, hlog2, hlog1, List.append_assoc]
    · rw [List.foldl_cons, hg2, hg1]
    · rw [List.foldl_cons, hsv2, hsv1, countT_append, Nat.add_assoc]
    · rw [List.foldl_cons]
      exact fun x hx => hkeys2 (hkeys1 hx)
    · rw [List.foldl_cons]
      exact fun h => hnv2 (hnv1 h)

theorem google_search_go_spec (provider : String → Nat → SearchPage) (query : String) :
    ∀ (pages : List Nat) (urls : List String) (st : CrawlerState),
      (google_search_go provider query pages urls st).2.found_emails = st.found_emails ∧
      (google_search_go provider query pages urls st).2.sites_visited = st.sites_visited ∧
      (google_search_go provider query pages urls st).2.fetch_log = st.fetch_log ∧
      ∃ k, k ≤ pages.length ∧
        (google_search_go provider query pages urls st).2.google_pages_crawled
          = st.google_pages_crawled + k := by
  intro pages
  induction pages with
  | nil =>
    intro urls st
    exact ⟨rfl, rfl, rfl, 0, Nat.zero_le 0, rfl⟩
  | cons i rest ih =>
    intro urls st
    simp only [google_search_go]
    cases hp : provider query i with
    | items links =>
      obtain ⟨h1, h2, h3, k, hk, h4⟩ :=
        ih (urls ++ links) { st with google_pages_crawled := st.google_pages_crawled + 1 }
      refine ⟨h1, h2, h3, k + 1, by simpa using Nat.succ_le_succ hk, ?_⟩
      rw [h4]
      simp
      omega
    | err =>
      exact ⟨rfl, rfl, rfl, 1, by simp, rfl⟩

theorem google_search_spec (provider : String → Nat → SearchPage) (st : CrawlerState)
    (query : String) (num_pages : Nat) :
    (google_search provider st query num_pages).2.found_emails = st.found_emails ∧
    (google_search provider st query num_pages).2.sites_visited = st.sites_visited ∧
    (google_search provider st query num_pages).2.fetch_log = st.fetch_log ∧
    ∃ k, k ≤ num_pages ∧
      (google_search provider st query num_pages).2.google_pages_crawled
        = st.google_pages_crawled + k := by
  have h := google_search_go_spec provider query (List.range num_pages) [] st
  simpa [google_search] using h

theorem search_and_crawl_spec (fetch : String → String × Bool) (parse : String → List Anchor)
    (urljoin : String → String → String) (provider : String → Nat → SearchPage)
    (st : CrawlerState) (query : String) (num_pages : Nat) : ∃ d k, k ≤ num_pages ∧
    (search_and_crawl fetch parse urljoin provider st query num_pages).2.fetch_log
      = st.fetch_log ++ d ∧
    (search_and_crawl fetch parse urljoin provider st query num_pages).2.sites_visited
      = st.sites_visited + countT d ∧
    (search_and_crawl fetch parse urljoin provider st query num_pages).2.google_pages_crawled
      = st.google_pages_crawled + k ∧
    keysFE st.found_emails ⊆
      keysFE (search_and_crawl fetch parse urljoin provider st query num_pages).2.found_emails ∧
    (NonemptyVals st.found_emails →
      NonemptyVals
        (search_and_crawl fetch parse urljoin provider st query num_pages).2.found_emails) := by
  obtain ⟨hfe, hsv, hlog, k, hk, hg⟩ := google_search_spec provider st query num_pages
  by_cases hr : (google_search provider st query num_pages).1 = []
  · simp only [search_and_crawl, if_pos hr]
    refine ⟨[], k, hk, by simpa using hlog, by simpa [countT] using hsv, hg, ?_, ?_⟩
    · rw [hfe]; exact fun x hx => hx
    · rw [hfe]; exact fun h => h
  · simp only [search_and_crawl, if_neg hr]
    obtain ⟨d, hlog2, hg2, hsv2, hkeys2, hnv2⟩ :=
      foldl_crawl_page_spec fetch parse urljoin (google_search provider st query num_pages).1
        (google_search provider st query num_pages).2
    refine ⟨d, k, hk, ?_, ?_, ?_, ?_, ?_⟩
    · rw [hlog2, hlog]
    · rw [hsv2, hsv]
    · rw [hg2, hg]
    · rw [← hfe]; exact hkeys2
    · rw [← hfe]; exact hnv2

theorem reachable_invariants {st : CrawlerState} (h : Reachable st) :
    NonemptyVals st.found_emails ∧ st.sites_visited = countT st.fetch_log := by
  induction h with
  | init => exact ⟨fun p hp => absurd hp (List.not_mem_nil p), rfl⟩
  | crawl fetch parse urljoin url _ ih =>
    obtain ⟨d, hlog, -, hsv, -, -, hnv, -⟩ := crawl_page_spec fetch parse urljoin _ url
    exact ⟨hnv ih.1, by rw [hsv, hlog, countT_append, ih.2]⟩
  | search fetch parse urljoin provider query num_pages _ ih =>
    obtain ⟨d, k, -, hlog, hsv, -, -, hnv⟩ :=
      search_and_crawl_spec fetch parse urljoin provider _ query num_pages
    exact ⟨hnv ih.1, by rw [hsv, hlog, countT_append, ih.2]⟩

theorem contact_step_eq (urljoin : String → String → String) (base_url : String)
    (acc : List String) (link : Anchor) :
    (if anchorQualifies link then
       if pyStartsWith (urljoin base_url (pyLower link.href)) "http://"
          || pyStartsWith (urljoin base_url (pyLower link.href)) "https://" then
         acc ++ [urljoin base_url (pyLower link.href)]
       else acc
     else acc)
    = acc ++ (contactChoice urljoin base_url link).toList := by
  simp only [contactChoice]
  split
  · split
    · rfl
    · simp
  · simp

theorem contact_foldl_eq (urljoin : String → String → String) (base_url : String) :
    ∀ (anchors : List Anchor) (acc : List String),
      anchors.foldl (fun acc link =>
        if anchorQualifies link then
          let full_url := urljoin base_url (pyLower link.href)
          if pyStartsWith full_url "http://" || pyStartsWith full_url "https://" then
            acc ++ [full_url]
          else acc
        else acc) acc
      = acc ++ anchors.filterMap (contactChoice urljoin base_url)
  | [], acc => by simp
  | a :: rest, acc => by
    simp only [List.foldl_cons]
    rw [contact_step_eq urljoin base_url acc a,
      contact_foldl_eq urljoin base_url rest (acc ++ (contactChoice urljoin base_url a).toList),
      List.filterMap_cons, List.append_assoc]
    cases contactChoice urljoin base_url a <;> simp

theorem find_contact_pages_eq (urljoin : String → String → String) (anchors : List Anchor)
    (base_url : String) :
    find_contact_pages urljoin anchors base_url
      = (anchors.filterMap (contactChoice urljoin base_url)).dedup := by
  simp only [find_contact_pages]
  rw [contact_foldl_eq urljoin base_url anchors []]
  simp

theorem mem_find_contact_pages {urljoin : String → String → String} {anchors : List Anchor}
    {base_url u : String} (hu : u ∈ find_contact_pages urljoin anchors base_url) :
    ∃ a ∈ anchors, anchorQualifies a = true ∧
      (pyStartsWith u "http://" = true ∨ pyStartsWith u "https://" = true) ∧
      u = urljoin base_url (pyLower a.href) := by
  rw [find_contact_pages_eq, List.mem_dedup, List.mem_filterMap] at hu
  obtain ⟨a, ha, hc⟩ := hu
  refine ⟨a, ha, ?_⟩
  by_cases hq : anchorQualifies a
  · by_cases hs : (pyStartsWith (urljoin base_url (pyLower a.href)) "http://"
        || pyStartsWith (urljoin base_url (pyLower a.href)) "https://") = true
    · simp only [contactChoice, if_pos hq, if_pos hs, Option.some.injEq] at hc
      subst hc
      exact ⟨hq, by simpa using hs, rfl⟩
    · simp [contactChoice, hq, hs] at hc
  · simp [contactChoice, hq] at hc

theorem find_contact_pages_nodup (urljoin : String → String → String) (anchors : List Anchor)
    (base_url : String) : (find_contact_pages urljoin anchors base_url).Nodup := by
  rw [find_contact_pages_eq]
  exact List.nodup_dedup _

theorem take_takeWhile_eq {l : List Char} {p : Char → Bool} {j : Nat}
    (h : j ≤ (l.takeWhile p).length) : l.take j = (l.takeWhile p).take j := by
  obtain ⟨s, hs⟩ := List.takeWhile_prefix (l := l) (p := p)
  conv_lhs => rw [← hs]
  rw [List.take_append_of_le_length h]

theorem mem_take_takeWhile {l : List Char} {p : Char → Bool} {j : Nat}
    (h : j ≤ (l.takeWhile p).length) : ∀ x ∈ l.take j, p x = true := by
  intro x hx
  rw [take_takeWhile_eq h] at hx
  exact List.mem_takeWhile_imp (List.take_subset _ _ hx)

theorem dotTldLen_spec {xs : List Char} {m : Nat} (h : dotTldLen xs = some m) :
    ∃ t, xs = '.' :: t ∧ m = (t.takeWhile isTldChar).length + 1 ∧
      2 ≤ (t.takeWhile isTldChar).length := by
  cases xs with
  | nil => simp [dotTldLen] at h
  | cons c t =>
    by_cases hc : c = '.'
    · subst hc
      simp only [dotTldLen, tldLen, eq_self_iff_true, if_true] at h
      by_cases h2 : 2 ≤ (t.takeWhile isTldChar).length
      · rw [if_pos h2] at h
        simp only [Option.map_some', Option.some.injEq] at h
        exact ⟨t, rfl, h.symm, h2⟩
      · rw [if_neg h2] at h
        simp at h
    · simp [dotTldLen, hc] at h

theorem domainBacktrack_spec {cs : List Char} :
    ∀ {k d : Nat}, domainBacktrack cs k = some d →
      ∃ j m, 1 ≤ j ∧ j ≤ k ∧ dotTldLen (cs.drop j) = some m ∧ d = j + m := by
  intro k
  induction k with
  | zero => intro d h; simp [domainBacktrack] at h
  | succ k ih =>
    intro d h
    simp only [domainBacktrack] at h
    cases hm : dotTldLen (cs.drop (k + 1)) with
    | some m =>
      rw [hm] at h
      simp only [Option.some.injEq] at h
      exact ⟨k + 1, m, by omega, Nat.le_refl _, hm, by omega⟩
    | none =>
      rw [hm] at h
      obtain ⟨j, m, h1, h2, h3, h4⟩ := ih h
      exact ⟨j, m, h1, by omega, h3, h4⟩

theorem matchLenAt_isEmail {cs : List Char} {n : Nat} (h : matchLenAt cs = some n) :
    IsEmail (cs.take n) := by
  simp only [matchLenAt] at h
  by_cases hl : (cs.takeWhile isLocalChar).length = 0
  · rw [if_pos hl] at h; simp at h
  · rw [if_neg hl] at h
    have htake : cs.take (cs.takeWhile isLocalChar).length = cs.takeWhile isLocalChar := by
      rw [take_takeWhile_eq (Nat.le_refl _), List.take_length]
    split at h
    · rename_i c rest heq
      by_cases hc : c = '@'
      · rw [if_pos hc] at h
        subst hc
        split at h
        · rename_i d hdb
          simp only [Option.some.injEq] at h
          have hcs : cs.takeWhile isLocalChar ++ '@' :: rest = cs := by
            have h1 := List.take_append_drop (cs.takeWhile isLocalChar).length cs
            rw [htake, heq] at h1
            exact h1
          obtain ⟨j, m, hj1, hjk, hdt, hd⟩ := domainBacktrack_spec hdb
          obtain ⟨t, ht, hm, htl⟩ := dotTldLen_spec hdt
          have hjr : j ≤ rest.length :=
            le_trans hjk (List.takeWhile_prefix _).length_le
          have hbl : (rest.take j).length = j := List.length_take_of_le hjr
          have hrest : rest.take j ++ '.' :: t = rest := by
            rw [← ht]; exact List.take_append_drop j rest
          have hct : t.take (t.takeWhile isTldChar).length = t.takeWhile isTldChar := by
            rw [take_takeWhile_eq (Nat.le_refl _), List.take_length]
          have hd2 : d = (rest.take j).length
              + ((t.takeWhile isTldChar).length + 1) := by omega
          have hmid : rest.take d = rest.take j ++ '.' :: t.takeWhile isTldChar :=
            calc rest.take d
                = (rest.take j ++ '.' :: t).take
                    ((rest.take j).length + ((t.takeWhile isTldChar).length + 1)) := by
                  rw [hrest, ← hd2]
              _ = rest.take j ++ ('.' :: t).take ((t.takeWhile isTldChar).length + 1) :=
                  List.take_append _
              _ = rest.take j ++ '.' :: t.take (t.takeWhile isTldChar).length := by
                  rw [List.take_succ_cons]
              _ = rest.take j ++ '.' :: t.takeWhile isTldChar := by rw [hct]
          have hn : n = (cs.takeWhile isLocalChar).length + (d + 1) := by omega
          have hsplit : cs.take n
              = cs.takeWhile isLocalChar
                ++ '@' :: (rest.take j ++ '.' :: t.takeWhile isTldChar) :=
            calc cs.take n
                = (cs.takeWhile isLocalChar ++ '@' :: rest).take
                    ((cs.takeWhile isLocalChar).length + (d + 1)) := by
                  rw [hcs, ← hn]
              _ = cs.takeWhile isLocalChar ++ ('@' :: rest).take (d + 1) :=
                  List.take_append _
              _ = cs.takeWhile isLocalChar ++ '@' :: rest.take d := by
                  rw [List.take_succ_cons]
              _ = cs.takeWhile isLocalChar
                    ++ '@' :: (rest.take j ++ '.' :: t.takeWhile isTldChar) := by
                  rw [hmid]
          refine ⟨cs.takeWhile isLocalChar, rest.take j, t.takeWhile isTldChar,
            hsplit, ?_, ?_, ?_, ?_, htl, ?_⟩
          · intro hae; exact hl (by simp [hae])
          · exact fun x hx => List.mem_takeWhile_imp hx
          · intro hbe; rw [hbe] at hbl; simp at hbl; omega
          · exact mem_take_takeWhile hjk
          · exact fun x hx => List.mem_takeWhile_imp hx
        · simp at h
      · rw [if_neg hc] at h
        simp at h
    · simp at h

theorem isEmailB_of_isEmail {l : List Char} (h : IsEmail l) : isEmailB l = true := by
  obtain ⟨a, b, c, hl, ha0, ha, hb0, hb, hc2, hc⟩ := h
  subst hl
  have hia : 1 ≤ a.length := List.length_pos.mpr ha0
  have hib : 1 ≤ b.length := List.length_pos.mpr hb0
  have hassoc1 : a ++ '@' :: (b ++ '.' :: c) = (a ++ ['@']) ++ (b ++ '.' :: c) := by simp
  have hassoc2 : a ++ '@' :: (b ++ '.' :: c) = (a ++ '@' :: b) ++ '.' :: c := by simp
  have hassoc3 : a ++ '@' :: (b ++ '.' :: c) = ((a ++ '@' :: b) ++ ['.']) ++ c := by simp
  rw [isEmailB, List.any_eq_true]
  refine ⟨a.length, List.mem_range.mpr (by simp [List.length_append]; omega), ?_⟩
  rw [List.any_eq_true]
  refine ⟨a.length + 1 + b.length,
    List.mem_range.mpr (by simp [List.length_append]; omega), ?_⟩
  simp only [emailSplitOK, Bool.and_eq_true, decide_eq_true_eq]
  refine ⟨⟨⟨⟨⟨⟨⟨hia, by omega⟩, by simp [List.length_append]; omega⟩, ?_⟩, ?_⟩, ?_⟩,
    ?_⟩, ?_⟩
  · rw [List.take_left, List.all_eq_true]
    exact ha
  · rw [List.get?_append_right (Nat.le_refl _)]
    simp
  · have hamt : a.length + 1 + b.length - (a.length + 1) = b.length := by omega
    rw [hamt, hassoc1, List.drop_left' (by simp), List.take_left, List.all_eq_true]
    exact hb
  · rw [hassoc2, List.get?_append_right (by simp [List.length_append]; omega)]
    have hidx : a.length + 1 + b.length - (a ++ '@' :: b).length = 0 := by
      simp [List.length_append]; omega
    rw [hidx]
    rfl
  · rw [hassoc3, List.drop_left' (by simp [List.length_append]; omega), List.all_eq_true]
    exact hc

theorem mem_substringsCL {m cs l : List Char} (hsuf : l <:+ cs) (hpre : m <+: l) :
    m ∈ substringsCL cs := by
  simp only [substringsCL, List.mem_flatMap]
  exact ⟨l, (List.mem_tails _ _).mpr hsuf, (List.mem_inits _ _).mpr hpre⟩

theorem findallFuel_sound :
    ∀ (fuel : Nat) (cs m : List Char), m ∈ findallFuel fuel cs →
      IsEmail m ∧ ∃ l, l <:+ cs ∧ m <+: l := by
  intro fuel
  induction fuel with
  | zero => intro cs m h; simp [findallFuel] at h
  | succ fuel ih =>
    intro cs m h
    cases cs with
    | nil => simp [findallFuel] at h
    | cons c cs' =>
      simp only [findallFuel] at h
      split at h
      · rename_i n hm
        rcases List.mem_cons.mp h with rfl | h2
        · exact ⟨matchLenAt_isEmail hm, c :: cs', List.suffix_refl _, List.take_prefix _ _⟩
        · obtain ⟨hie, l, hsuf, hpre⟩ := ih _ _ h2
          exact ⟨hie, l, hsuf.trans (List.drop_suffix _ _), hpre⟩
      · obtain ⟨hie, l, hsuf, hpre⟩ := ih _ _ h
        exact ⟨hie, l, hsuf.trans (List.suffix_cons c cs'), hpre⟩

theorem extract_emails_sound (text : String) :
    extract_emails text ⊆ emailSubstrings text := by
  intro e he
  simp only [extract_emails, List.mem_toFinset, List.mem_map] at he
  obtain ⟨m, hm, rfl⟩ := he
  simp only [findall] at hm
  obtain ⟨hie, l, hsuf, hpre⟩ := findallFuel_sound _ _ _ hm
  simp only [emailSubstrings, List.mem_toFinset, List.mem_map]
  refine ⟨m, ?_, rfl⟩
  rw [List.mem_filter]
  exact ⟨mem_substringsCL hsuf hpre, isEmailB_of_isEmail hie⟩

/-- C1: across every sequence of `crawl_page` / `search_and_crawl` operations
on a fresh crawler, every URL present as a key of the ResultMap
(`found_emails`) maps to a non-empty e-mail set: the insertions on lines
112-113 and 135-136 are guarded by `if emails:` / `if contact_emails:`, so no
entry is ever created for a page whose extraction yielded nothing. -/
theorem C1_result_map_values_nonempty {st : CrawlerState} (h : Reachable st) :
    NonemptyVals st.found_emails :=
  (reachable_invariants h).1

theorem C1_result_map_values_nonempty_witness :
    NonemptyVals (crawl_page fetchA parseA ujoin initState "s1").found_emails :=
  C1_result_map_values_nonempty
    (Reachable.crawl fetchA parseA ujoin "s1" Reachable.init)

/-- C2: during `crawl_page`, the fetch log beyond the mandatory main-page
fetch never revisits a URL that was already a key of `found_emails` when the
call started (line 128's `contact_url not in self.found_emails` is the only
de-duplication check), and every discovered contact URL that still is not a
key when the call ends was fetched during the call — in particular a contact
URL whose earlier fetch yielded zero e-mails (hence never became a key) is
fetched again each time it is rediscovered. -/
theorem C2_contact_dedup_is_result_map_membership (fetch : String → String × Bool)
    (parse : String → List Anchor) (urljoin : String → String → String)
    (st : CrawlerState) (url : String) : ∃ rest,
    (crawl_page fetch parse urljoin st url).fetch_log
      = st.fetch_log ++ (url, (fetch url).2) :: rest ∧
    (∀ c ∈ keysFE st.found_emails, ∀ e ∈ rest, e.1 ≠ c) ∧
    ((fetch url).2 = true →
      ∀ c ∈ find_contact_pages urljoin (parse (fetch url).1) url,
        lookupFE (crawl_page fetch parse urljoin st url).found_emails c = none →
          ∃ e ∈ rest, e.1 = c) := by
  obtain ⟨d, hlog, -, -, hmem, -, -, hcov⟩ := crawl_page_spec fetch parse urljoin st url
  refine ⟨d, hlog, ?_, hcov⟩
  intro c hc e he heq
  exact hmem e he (by rw [heq]; exact hc)

theorem C2_contact_dedup_is_result_map_membership_witness : ∃ rest,
    (crawl_page fetchA parseA ujoin initState "s1").fetch_log
      = initState.fetch_log ++ ("s1", (fetchA "s1").2) :: rest ∧
    (∀ c ∈ keysFE initState.found_emails, ∀ e ∈ rest, e.1 ≠ c) ∧
    ((fetchA "s1").2 = true →
      ∀ c ∈ find_contact_pages ujoin (parseA (fetchA "s1").1) "s1",
        lookupFE (crawl_page fetchA parseA ujoin initState "s1").found_emails c = none →
          ∃ e ∈ rest, e.1 = c) :=
  C2_contact_dedup_is_result_map_membership fetchA parseA ujoin initState "s1"

/-- C3 counterexample: `extract_emails` does not return every distinct
substring matching the e-mail pattern.  On `"ab@cd.ef"` the substring
`"b@cd.ef"` matches the pattern, yet only the scanner's greedy leftmost match
`"ab@cd.ef"` is returned, so the two sets differ. -/
theorem C3_counterexample :
    extract_emails "ab@cd.ef" ≠ emailSubstrings "ab@cd.ef" ∧
    "b@cd.ef" ∈ emailSubstrings "ab@cd.ef" ∧
    "b@cd.ef" ∉ extract_emails "ab@cd.ef" := by decide

/-- C3 (amended): `extract_emails text` returns a set of distinct substrings
of `text`, each of which matches the e-mail pattern — i.e. a subset of the
substrings matching the pattern (the non-overlapping left-to-right greedy
matches), not all of them — and the empty string yields the empty set. -/
theorem C3_extract_emails_sound :
    (∀ text : String, extract_emails text ⊆ emailSubstrings text) ∧
    extract_emails "" = ∅ :=
  ⟨extract_emails_sound, by decide⟩

/-- C4: `find_contact_pages` returns a duplicate-free list; every element
starts with `http://` or `https://` (never a relative URL), and every element
arises from an anchor whose lower-cased href or lower-cased text contains one
of the keywords `contact, about, team, staff, directory, about-us` — anchors
lacking every keyword contribute nothing. -/
theorem C4_find_contact_pages_absolute_nodup_keyworded
    (urljoin : String → String → String) (anchors : List Anchor) (base_url : String) :
    (find_contact_pages urljoin anchors base_url).Nodup ∧
    ∀ u ∈ find_contact_pages urljoin anchors base_url,
      (pyStartsWith u "http://" = true ∨ pyStartsWith u "https://" = true) ∧
      ∃ a ∈ anchors, anchorQualifies a = true ∧ u = urljoin base_url (pyLower a.href) := by
  refine ⟨find_contact_pages_nodup urljoin anchors base_url, ?_⟩
  intro u hu
  obtain ⟨a, ha, hq, hs, he⟩ := mem_find_contact_pages hu
  exact ⟨hs, a, ha, hq, he⟩

theorem C4_find_contact_pages_absolute_nodup_keyworded_witness :
    (find_contact_pages ujoin [anchorUpper] "http://b.co").Nodup ∧
    ∀ u ∈ find_contact_pages ujoin [anchorUpper] "http://b.co",
      (pyStartsWith u "http://" = true ∨ pyStartsWith u "https://" = true) ∧
      ∃ a ∈ [anchorUpper], anchorQualifies a = true ∧
        u = ujoin "http://b.co" (pyLower a.href) :=
  C4_find_contact_pages_absolute_nodup_keyworded ujoin [anchorUpper] "http://b.co"

/-- C5: across a whole run, `sites_visited` equals the number of
`get_page_content` calls — main seed pages and contact pages together — that
returned success, as recorded by the ghost fetch log. -/
theorem C5_sites_visited_eq_successful_fetches {st : CrawlerState} (h : Reachable st) :
    st.sites_visited = countT st.fetch_log :=
  (reachable_invariants h).2

theorem C5_sites_visited_eq_successful_fetches_witness :
    (crawl_page fetchA parseA ujoin initState "s1").sites_visited
      = countT (crawl_page fetchA parseA ujoin initState "s1").fetch_log :=
  C5_sites_visited_eq_successful_fetches
    (Reachable.crawl fetchA parseA ujoin "s1" Reachable.init)

/-- C6 counterexample: crawling the single seed `s1` fetches its main page
and one contact page, both successfully; `sites_visited` ends at 2 — the
successful contact-page fetch incremented it too — not at the value 1 that
counting main (seed) pages only would give. -/
theorem C6_counterexample :
    (crawl_page fetchA parseA ujoin initState "s1").fetch_log
      = [("s1", true), ("http://c1/contact", true)] ∧
    (crawl_page fetchA parseA ujoin initState "s1").sites_visited = 2 ∧
    ¬ (crawl_page fetchA parseA ujoin initState "s1").sites_visited = 1 := by decide

/-- C6 (amended): `sites_visited` counts every successful fetch, of main and
contact pages alike (the increment sits in `get_page_content`, which serves
both call sites), and both counters are monotonically non-decreasing across
`crawl_page`, `search_and_crawl` and `google_search`. -/
theorem C6_counters_monotone_and_count_all_successes (fetch : String → String × Bool)
    (parse : String → List Anchor) (urljoin : String → String → String)
    (provider : String → Nat → SearchPage) (st st2 st3 : CrawlerState)
    (url query : String) (num_pages : Nat) :
    (∃ d, (crawl_page fetch parse urljoin st url).fetch_log = st.fetch_log ++ d ∧
      (crawl_page fetch parse urljoin st url).sites_visited
        = st.sites_visited + countT d) ∧
    st.sites_visited ≤ (crawl_page fetch parse urljoin st url).sites_visited ∧
    st.google_pages_crawled
      ≤ (crawl_page fetch parse urljoin st url).google_pages_crawled ∧
    st2.sites_visited
      ≤ (search_and_crawl fetch parse urljoin provider st2 query num_pages).2.sites_visited ∧
    st2.google_pages_crawled
      ≤ (search_and_crawl fetch parse urljoin provider st2 query
          num_pages).2.google_pages_crawled ∧
    st3.sites_visited = (google_search provider st3 query num_pages).2.sites_visited ∧
    st3.google_pages_crawled
      ≤ (google_search provider st3 query num_pages).2.google_pages_crawled := by
  obtain ⟨d, hlog, hg, hsv, -, -, -, -⟩ := crawl_page_spec fetch parse urljoin st url
  obtain ⟨d2, k2, -, -, hsv2, hg2, -, -⟩ :=
    search_and_crawl_spec fetch parse urljoin provider st2 query num_pages
  obtain ⟨-, hsv3, -, k3, -, hg3⟩ := google_search_spec provider st3 query num_pages
  refine ⟨⟨(url, (fetch url).2) :: d, hlog, hsv⟩, ?_, ?_, ?_, ?_, hsv3.symm, ?_⟩
  · rw [hsv]; exact Nat.le_add_right _ _
  · rw [hg]
  · rw [hsv2]; exact Nat.le_add_right _ _
  · rw [hg2]; exact Nat.le_add_right _ _
  · rw [hg3]; exact Nat.le_add_right _ _

/-- C7: when the search yields no URLs, `search_and_crawl` returns the empty
dictionary immediately: nothing is fetched or crawled (`fetch_log`,
`found_emails` and `sites_visited` are unchanged), and
`google_pages_crawled` moved only by the per-page-attempt increments the
search loop itself performed. -/
theorem C7_empty_search_short_circuits (fetch : String → String × Bool)
    (parse : String → List Anchor) (urljoin : String → String → String)
    (provider : String → Nat → SearchPage) (st : CrawlerState) (query : String)
    (num_pages : Nat) (h : (google_search provider st query num_pages).1 = []) :
    (search_and_crawl fetch parse urljoin provider st query num_pages).1 = [] ∧
    (search_and_crawl fetch parse urljoin provider st query num_pages).2.found_emails
      = st.found_emails ∧
    (search_and_crawl fetch parse urljoin provider st query num_pages).2.sites_visited
      = st.sites_visited ∧
    (search_and_crawl fetch parse urljoin provider st query num_pages).2.fetch_log
      = st.fetch_log ∧
    ∃ k, k ≤ num_pages ∧
      (search_and_crawl fetch parse urljoin provider st query
          num_pages).2.google_pages_crawled
        = st.google_pages_crawled + k := by
  obtain ⟨hfe, hsv, hlog, k, hk, hg⟩ := google_search_spec provider st query num_pages
  simp only [search_and_crawl, if_pos h]
  exact ⟨trivial, hfe, hsv, hlog, k, hk, hg⟩

theorem C7_empty_search_short_circuits_witness :
    (search_and_crawl fetchA parseA ujoin provErr initState "q" 2).1 = [] ∧
    (search_and_crawl fetchA parseA ujoin provErr initState "q" 2).2.found_emails
      = initState.found_emails ∧
    (search_and_crawl fetchA parseA ujoin provErr initState "q" 2).2.sites_visited
      = initState.sites_visited ∧
    (search_and_crawl fetchA parseA ujoin provErr initState "q" 2).2.fetch_log
      = initState.fetch_log ∧
    ∃ k, k ≤ 2 ∧
      (search_and_crawl fetchA parseA ujoin provErr initState "q" 2).2.google_pages_crawled
        = initState.google_pages_crawled + k :=
  C7_empty_search_short_circuits fetchA parseA ujoin provErr initState "q" 2 (by decide)

/-- C8: constructing the crawler with either credential missing from the
environment raises the `ValueError` of line 57 at construction time, before
any search or crawl can run. -/
theorem C8_missing_credentials_fatal (env : String → Option String) (debug_mode : Bool)
    (h : env "GOOGLE_API_KEY" = none ∨ env "GOOGLE_CSE_ID" = none) :
    EmailCrawler_init env debug_mode
      = Except.error "Missing API key or Search Engine ID in .env file" := by
  rcases h with h | h <;> simp [EmailCrawler_init, pyTruthy, h]

theorem C8_missing_credentials_fatal_witness :
    EmailCrawler_init envEmpty false
      = Except.error "Missing API key or Search Engine ID in .env file" :=
  C8_missing_credentials_fatal envEmpty false (Or.inl rfl)

/-- C9 counterexample: a two-invocation run on one crawler.  The first call
(query `q1`) stores an entry for seed `s1`.  The second call (query `q2`)
fetches only `s2`, yet the dictionary it returns has keys `s1` and `s2` —
`found_emails` is never cleared between invocations, so the returned map is
not limited to the second invocation's own findings. -/
theorem C9_counterexample :
    keysFE runB2.1 = ["s1", "s2"] ∧
    runB2.2.fetch_log = [("s1", true), ("s2", true)] ∧
    ¬ keysFE runB2.1 = ["s2"] := by decide

/-- C9 (amended): `found_emails` accumulates on the crawler across
invocations: `search_and_crawl` returns either the empty dictionary (when the
search yielded nothing) or the crawler's accumulated `found_emails`, whose
key set includes every key present before the call; a second invocation on
the same crawler therefore returns the first invocation's entries along with
its own. -/
theorem C9_result_map_accumulates_across_invocations (fetch : String → String × Bool)
    (parse : String → List Anchor) (urljoin : String → String → String)
    (provider : String → Nat → SearchPage) (st : CrawlerState) (query : String)
    (num_pages : Nat) :
    keysFE st.found_emails ⊆
      keysFE (search_and_crawl fetch parse urljoin provider st query
        num_pages).2.found_emails ∧
    ((search_and_crawl fetch parse urljoin provider st query num_pages).1 = [] ∨
      (search_and_crawl fetch parse urljoin provider st query num_pages).1
        = (search_and_crawl fetch parse urljoin provider st query
            num_pages).2.found_emails) := by
  obtain ⟨d, k, -, -, -, -, hkeys, -⟩ :=
    search_and_crawl_spec fetch parse urljoin provider st query num_pages
  refine ⟨hkeys, ?_⟩
  by_cases hr : (google_search provider st query num_pages).1 = []
  · left; simp [search_and_crawl, hr]
  · right; simp [search_and_crawl, hr]

/-- C10: every URL returned by `find_contact_pages` is `urljoin` applied to
the base URL and the LOWER-CASED href (line 86 lower-cases the href before
line 90 joins it), so the anchor's original character case is not
preserved. -/
theorem C10_returned_url_is_join_of_lowercased_href (urljoin : String → String → String)
    (anchors : List Anchor) (base_url : String) :
    ∀ u ∈ find_contact_pages urljoin anchors base_url,
      ∃ a ∈ anchors, u = urljoin base_url (pyLower a.href) := by
  intro u hu
  obtain ⟨a, ha, -, -, he⟩ := mem_find_contact_pages hu
  exact ⟨a, ha, he⟩

theorem C10_returned_url_is_join_of_lowercased_href_witness :
    ∃ a ∈ [anchorUpper], "http://site.com/about-us" = ujoin "http://b.co" (pyLower a.href) :=
  C10_returned_url_is_join_of_lowercased_href ujoin [anchorUpper] "http://b.co"
    "http://site.com/about-us" (by decide)

end Crawler

